import Mathlib

/-!
Shallow embedding of the core of the adotkaya/url-shortener repository.

The embedding follows the Go source:
  * `internal/domain/url.go`         — the `URL` entity, its sentinel errors and methods
  * `pkg/validator/validator.go`     — pure alias validation
  * `internal/service/url_service.go`— the service layer (CreateShortURL, GetURL,
                                       RecordClick, DeleteURL, generateUniqueShortCode,
                                       generateShortCode)
  * `internal/repository/postgres`   — the durable store, modelled as a list of records
  * `internal/cache/redis`           — the look-aside cache, modelled as an association list

Go `time.Time` instants are modelled as `Int` (so that negative `time.Duration`
offsets are representable); `time.Now()` becomes an explicit `now` parameter.
Randomness (`crypto/rand`) and store-assigned ids are explicit oracles.
-/

namespace UrlShortener

/-- Sentinel errors of `internal/domain/url.go` (`ErrInvalidURL`, `ErrEmptyURL`,
`ErrShortCodeTooShort`, `ErrURLExpired`, `ErrURLNotActive`, `ErrCustomAliasInvalid`). -/
inductive DomainErr where
  | invalidURL
  | emptyURL
  | shortCodeTooShort
  | urlExpired
  | urlNotActive
  | customAliasInvalid
deriving DecidableEq, Repr

/-- The `domain.URL` struct of `internal/domain/url.go`. Pointer-typed (nullable)
fields become `Option`; `time.Time` becomes `Int`. -/
structure URL where
  id : String
  shortCode : String
  originalURL : String
  customAlias : Option String
  createdAt : Int
  expiresAt : Option Int
  clicks : Int
  createdBy : String
  isActive : Bool
deriving DecidableEq, Repr

/-- Size in bytes of one character under UTF-8, as Go's encoder lays it out.
Used to model Go's `len(s)` on strings, which counts bytes, not runes. -/
def charUtf8Size (c : Char) : Nat :=
  if c.toNat ≤ 0x7F then 1
  else if c.toNat ≤ 0x7FF then 2
  else if c.toNat ≤ 0xFFFF then 3
  else 4

/-- Byte length of a character list under UTF-8. -/
def goLenList : List Char → Nat
  | [] => 0
  | c :: cs => charUtf8Size c + goLenList cs

/-- Go's `len(s)` for a string: the number of UTF-8 bytes. -/
def goStrLen (s : String) : Nat := goLenList s.data

/-- The result of Go's `net/url.Parse` restricted to the two fields the
repository reads: `Scheme` and `Host`. -/
structure GoURL where
  scheme : String
  host : String
deriving DecidableEq, Repr

/-- Scheme scanner of `net/url`'s `getScheme`: walks the string; a leading
letter starts a scheme, which may continue with letters, digits, `+`, `-`, `.`
and is terminated by `:`.  A `:` at position 0 is a parse error (`none`); any
other outcome leaves the whole input as the remainder with an empty scheme. -/
def getSchemeAux (orig : List Char) : List Char → List Char → Bool → Option (List Char × List Char)
  | [], _, _ => some ([], orig)
  | c :: rest, acc, first =>
    if c.isAlpha then getSchemeAux orig rest (acc ++ [c]) false
    else if c.isDigit || c == '+' || c == '-' || c == '.' then
      (if first then some ([], orig) else getSchemeAux orig rest (acc ++ [c]) false)
    else if c == ':' then
      (if first then none else some (acc, rest))
    else some ([], orig)

/-- Model of Go's `net/url.Parse` producing the `Scheme` and `Host` fields,
for URLs without userinfo or IPv6 literals (the only fields `domain.Validate`
and `validator.ValidateURL` consume).  After the scheme is split off, a host is
present exactly when the remainder starts with `//`; it extends to the next
`/`, `?` or `#`. -/
def parseURL (s : String) : Option GoURL :=
  match getSchemeAux s.data s.data [] true with
  | none => none
  | some (sch, rest) =>
    let host :=
      if rest.take 2 = ['/', '/'] then
        (rest.drop 2).takeWhile (fun c => c ≠ '/' && c ≠ '?' && c ≠ '#')
      else []
    some ⟨String.mk (sch.map Char.toLower), String.mk host⟩

/-- Test for `strings.TrimSpace(s) == ""`: every character is whitespace. -/
def isBlank (s : String) : Bool :=
  s.data.all (fun c => c == ' ' || c == '\t' || c == '\n' || c == '\r')

/-- Method `IsExpired` of `internal/domain/url.go`: a `nil` expiry never
expires; otherwise the URL is expired when the current time is strictly after
the expiry instant (`time.Now().After(*u.ExpiresAt)`). -/
def URL.isExpired (u : URL) (now : Int) : Bool :=
  match u.expiresAt with
  | none => false
  | some t => t < now

/-- Method `CanBeAccessed` of `internal/domain/url.go`: inactive beats expired;
`none` means the record is accessible. -/
def URL.canBeAccessed (u : URL) (now : Int) : Option DomainErr :=
  if !u.isActive then some .urlNotActive
  else if u.isExpired now then some .urlExpired
  else none

/-- Private helper `isValidAlias` of `internal/domain/url.go`: byte length in
[3,20] and every rune in `[A-Za-z0-9_-]`. -/
def isValidAlias (al : String) : Bool :=
  if goStrLen al < 3 || goStrLen al > 20 then false
  else al.data.all (fun c =>
    ('a' ≤ c && c ≤ 'z') || ('A' ≤ c && c ≤ 'Z') || ('0' ≤ c && c ≤ '9') ||
    c == '-' || c == '_')

/-- Method `Validate` of `internal/domain/url.go`, check for check in source
order: empty original URL, URL parse failure, scheme not http/https, empty
host, short code shorter than 3 bytes, invalid non-empty custom alias. -/
def URL.validate (u : URL) : Option DomainErr :=
  if isBlank u.originalURL then some .emptyURL
  else
    match parseURL u.originalURL with
    | none => some .invalidURL
    | some p =>
      if p.scheme ≠ "http" && p.scheme ≠ "https" then some .invalidURL
      else if p.host = "" then some .invalidURL
      else if goStrLen u.shortCode < 3 then some .shortCodeTooShort
      else
        match u.customAlias with
        | some a => if a ≠ "" && !isValidAlias a then some .customAliasInvalid else none
        | none => none

/-- Constructor `NewURL` of `internal/domain/url.go`: active, zero clicks,
creation stamped with the current clock, no alias, no expiry, id assigned
later by the store. -/
def NewURL (originalURL shortCode createdBy : String) (now : Int) : URL :=
  { id := ""
    shortCode := shortCode
    originalURL := originalURL
    customAlias := none
    createdAt := now
    expiresAt := none
    clicks := 0
    createdBy := createdBy
    isActive := true }

/-- Builder `WithCustomAlias` of `internal/domain/url.go`. -/
def URL.withCustomAlias (u : URL) (al : String) : URL :=
  { u with customAlias := some al }

/-- Builder `WithExpiration` of `internal/domain/url.go`:
`expiresAt := time.Now().Add(duration)`. -/
def URL.withExpiration (u : URL) (now duration : Int) : URL :=
  { u with expiresAt := some (now + duration) }

/-- Errors of `pkg/validator`: `ErrInvalidAliasLength` and
`ErrInvalidAliasFormat` (the URL-side errors of that package are not needed by
the claims). -/
inductive ValidatorErr where
  | invalidAliasLength
  | invalidAliasFormat
deriving DecidableEq, Repr

/-- Helper `isAlphanumeric` of `pkg/validator/validator.go`. -/
def isAlphanumeric (c : Char) : Bool :=
  ('a' ≤ c && c ≤ 'z') || ('A' ≤ c && c ≤ 'Z') || ('0' ≤ c && c ≤ '9')

/-- Function `ValidateCustomAlias` of `pkg/validator/validator.go`: byte length
in [3,20], then every rune alphanumeric or `-` or `_` (the Go loop returns on
the first offending rune; the result only records whether one exists). -/
def validateCustomAlias (al : String) : Option ValidatorErr :=
  if goStrLen al < 3 || goStrLen al > 20 then some .invalidAliasLength
  else if al.data.all (fun c => isAlphanumeric c || c == '-' || c == '_') then none
  else some .invalidAliasFormat

/-- The fixed charset of `generateShortCode` in
`internal/service/url_service.go`. -/
def charset : String :=
  "abcdefghijklmnopqrstuvwxyzABCDEFGHIJKLMNOPQRSTUVWXYZ0123456789"

/-- The alphabet of Go's `base64.URLEncoding` (RFC 4648 URL-safe). -/
def b64urlAlphabet : String :=
  "ABCDEFGHIJKLMNOPQRSTUVWXYZabcdefghijklmnopqrstuvwxyz0123456789-_"

/-- Six-bit indices of the base64 encoding of a byte sequence; `none` marks a
`=` padding position.  Three input bytes yield four data characters; the two
partial-group shapes follow RFC 4648 as implemented by Go `encoding/base64`. -/
def base64Indices : List Nat → List (Option Nat)
  | [] => []
  | [b0] => [some (b0 / 4), some (b0 % 4 * 16), none, none]
  | [b0, b1] => [some (b0 / 4), some (b0 % 4 * 16 + b1 / 16), some (b1 % 16 * 4), none]
  | b0 :: b1 :: b2 :: rest =>
    some (b0 / 4) :: some (b0 % 4 * 16 + b1 / 16) ::
    some (b1 % 16 * 4 + b2 / 64) :: some (b2 % 64) :: base64Indices rest

/-- Output character for one base64 position. -/
def b64OutChar : Option Nat → Char
  | some i => b64urlAlphabet.data.getD i 'A'
  | none => '='

/-- Go's `base64.URLEncoding.EncodeToString` on a byte list. -/
def base64urlEncode (bs : List Nat) : String :=
  String.mk ((base64Indices bs).map b64OutChar)

/-- Function `generateShortCode` of `internal/service/url_service.go`.
`rand` is the `crypto/rand.Read` oracle: `some bytes` supplies the random byte
stream, `none` is a read error.  `ts` is the string `time.Now().String()`
returns at the moment of the call (always ASCII for Go time values).  On the
crypto path each byte indexes `charset` by `b % 62`; on the fallback path the
result is the first `length` bytes of the base64-url encoding of `ts`. -/
def generateShortCode (rand : Option (Nat → Nat)) (ts : String) (length : Nat) : String :=
  match rand with
  | some bytes =>
    String.mk ((List.range length).map (fun i =>
      charset.data.getD ((bytes i % 256) % charset.data.length) 'a'))
  | none =>
    String.mk ((base64urlEncode (ts.data.map Char.toNat)).data.take length)

/-- Error kinds surfaced by the service layer of
`internal/service/url_service.go`, one constructor per distinct `fmt.Errorf`
site (validation and access errors keep their wrapped domain error). -/
inductive SvcErr where
  | aliasTaken
  | codeSpaceExhausted
  | validation (e : DomainErr)
  | notFound
  | access (e : DomainErr)
  | incrementFailed
  | repoNotFound
deriving DecidableEq, Repr

/-- Decidable equality for `Except`, so that concrete service outcomes can be
evaluated by `decide`. -/
instance instDecEqExcept {α β : Type} [DecidableEq α] [DecidableEq β] :
    DecidableEq (Except α β)
  | .error x, .error y =>
    if h : x = y then .isTrue (by rw [h]) else .isFalse (fun hc => h (Except.error.inj hc))
  | .error _, .ok _ => .isFalse (fun hc => Except.noConfusion hc)
  | .ok _, .error _ => .isFalse (fun hc => Except.noConfusion hc)
  | .ok x, .ok y =>
    if h : x = y then .isTrue (by rw [h]) else .isFalse (fun hc => h (Except.ok.inj hc))

/-- Outcome of one `cache.GetURL` call as the service inspects it
(`err == nil && cachedURL != nil` is a hit; `(nil, nil)` is a miss; any error
falls through to the database exactly like a miss). -/
inductive CacheGetRes where
  | hit (u : URL)
  | miss
  | errc
deriving DecidableEq, Repr

/-- Shared tail of both lookup paths of `GetURL`: the `CanBeAccessed` check on
the record about to be returned. -/
def accessCheck (u : URL) (now : Int) : Except SvcErr URL :=
  match u.canBeAccessed now with
  | some e => .error (.access e)
  | none => .ok u

/-- Method `GetURL` of `internal/service/url_service.go` over its collaborator
interfaces: `cGet` is the cache's answer for a key; `dbByCode` and `dbByAlias`
are the repository lookups, where `none` stands for any error return
(`GetURL` treats a failed `GetByShortCode` as a cue to try the alias, and a
failed `GetByCustomAlias` as not-found, regardless of the error).  The
trailing `cache.SetURL` of the database path has its error discarded by the
source, so the returned value does not depend on it. -/
def getURL (cGet : String → CacheGetRes) (dbByCode dbByAlias : String → Option URL)
    (now : Int) (code : String) : Except SvcErr URL :=
  match cGet code with
  | .hit u => accessCheck u now
  | _ =>
    match dbByCode code with
    | some u => accessCheck u now
    | none =>
      match dbByAlias code with
      | some u => accessCheck u now
      | none => .error .notFound

/-- Method `RecordClick` of `internal/service/url_service.go` over its
collaborators: `dbByCode` is the repository lookup for the code (`none` = any
error), `increment` tells whether `IncrementClicks` succeeded, and
`clickCreate` tells whether the analytics append succeeded — the source logs
and discards the latter. -/
def recordClick (dbByCode : Option URL) (increment : Bool) (clickCreate : Bool) :
    Except SvcErr Unit :=
  match dbByCode with
  | none => .error .notFound
  | some _ =>
    if increment then
      let _ := clickCreate
      .ok ()
    else .error .incrementFailed

/-- Durable store of `internal/repository/postgres` (`urls` table), modelled
as the list of its rows. -/
abbrev Store := List URL

/-- Query of `GetByShortCode`: `WHERE short_code = $1 AND is_active = true`;
`none` models `pgx.ErrNoRows` becoming the not-found error. -/
def pgGetByShortCode (db : Store) (code : String) : Option URL :=
  db.find? (fun u => u.shortCode == code && u.isActive)

/-- Query of `GetByCustomAlias`: `WHERE custom_alias = $1 AND is_active = true`. -/
def pgGetByCustomAlias (db : Store) (al : String) : Option URL :=
  db.find? (fun u => u.customAlias == some al && u.isActive)

/-- Query of `ExistsShortCode`: `EXISTS(SELECT 1 FROM urls WHERE short_code = $1)` —
note the absence of an `is_active` filter. -/
def pgExistsShortCode (db : Store) (code : String) : Bool :=
  db.any (fun u => u.shortCode == code)

/-- Query of `ExistsCustomAlias`: `EXISTS(... WHERE custom_alias = $1)`. -/
def pgExistsCustomAlias (db : Store) (al : String) : Bool :=
  db.any (fun u => u.customAlias == some al)

/-- Insert of `Create`: the row is stored and the store-assigned id is scanned
back into the record. -/
def pgCreate (db : Store) (u : URL) (newId : String) : Store :=
  db ++ [{ u with id := newId }]

/-- Update of `Delete`: `UPDATE urls SET is_active = false WHERE id = $1`,
with the `RowsAffected() == 0` check becoming a not-found error. -/
def pgDelete (db : Store) (id : String) : Except SvcErr Store :=
  if db.any (fun u => u.id == id) then
    .ok (db.map (fun u => if u.id == id then { u with isActive := false } else u))
  else .error .repoNotFound

/-- The redis cache of `internal/cache/redis`, modelled as an association
list keyed by short code (entry TTLs are enforced by redis itself and are not
part of this component's contract; a flushed or expired cache is represented
by removing entries). -/
abbrev CacheState := List (String × URL)

/-- Redis `SET url:{code}`: overwrite the key. -/
def cacheSet (c : CacheState) (code : String) (u : URL) : CacheState :=
  (code, u) :: c.filter (fun p => p.1 ≠ code)

/-- Redis `GET url:{code}` as the service sees it: a present key is a hit, an
absent key a miss. -/
def cacheGetRes (c : CacheState) (code : String) : CacheGetRes :=
  match c.find? (fun p => p.1 == code) with
  | some p => .hit p.2
  | none => .miss

/-- The retry loop body of `generateUniqueShortCode`: `attempts` iterations
remain, `i` is the index into the candidate-code oracle (one fresh
`generateShortCode` result per iteration); a candidate is accepted when
`ExistsShortCode` answers false, and an exhausted budget is the
`failed to generate unique short code after 10 attempts` error. -/
def genAttempts (db : Store) (cands : Nat → String) : Nat → Nat → Except SvcErr String
  | 0, _ => .error .codeSpaceExhausted
  | n + 1, i =>
    if pgExistsShortCode db (cands i) then genAttempts db cands n (i + 1)
    else .ok (cands i)

/-- Method `generateUniqueShortCode` of `internal/service/url_service.go`:
up to 10 attempts. -/
def generateUniqueShortCode (db : Store) (cands : Nat → String) : Except SvcErr String :=
  genAttempts db cands 10 0

/-- Method `CreateShortURL` of `internal/service/url_service.go` composed with
the postgres store and redis cache models.  In source order: resolve the short
code (alias existence check, or unique generation), build the record with
`NewURL` / `WithCustomAlias` / `WithExpiration` (the latter only when
`expiresIn > 0`), validate it, persist it (the store assigns `newId`), then
populate the cache best-effort — `cSetOk` tells whether that `SetURL`
succeeded; its error is discarded, so only the final cache state depends on
it.  Returns the result together with the new store and cache states. -/
def sysCreate (db : Store) (cache : CacheState) (cands : Nat → String) (newId : String)
    (cSetOk : Bool) (now : Int) (target al createdBy : String) (ttl : Int) :
    Except SvcErr URL × Store × CacheState :=
  let codeRes : Except SvcErr String :=
    if al ≠ "" then
      if pgExistsCustomAlias db al then .error .aliasTaken else .ok al
    else generateUniqueShortCode db cands
  match codeRes with
  | .error e => (.error e, db, cache)
  | .ok code =>
    let u0 := NewURL target code createdBy now
    let u1 := if al ≠ "" then u0.withCustomAlias al else u0
    let u2 := if ttl > 0 then u1.withExpiration now ttl else u1
    match u2.validate with
    | some e => (.error (.validation e), db, cache)
    | none =>
      let u3 : URL := { u2 with id := newId }
      (.ok u3, pgCreate db u2 newId,
        if cSetOk then cacheSet cache code u3 else cache)

/-- Method `GetURL` composed with the postgres store and redis cache models:
cache hit → access check only; cache miss → code lookup, then alias fallback,
then access check, then best-effort cache population (`cSetOk` as in
`sysCreate`).  Returns the result and the new cache state. -/
def sysGet (db : Store) (cache : CacheState) (cSetOk : Bool) (now : Int) (code : String) :
    Except SvcErr URL × CacheState :=
  match cacheGetRes cache code with
  | .hit u => (accessCheck u now, cache)
  | _ =>
    match pgGetByShortCode db code with
    | some u =>
      (accessCheck u now,
        if (accessCheck u now).isOk && cSetOk then cacheSet cache code u else cache)
    | none =>
      match pgGetByCustomAlias db code with
      | some u =>
        (accessCheck u now,
          if (accessCheck u now).isOk && cSetOk then cacheSet cache code u else cache)
      | none => (.error .notFound, cache)

/-- Method `DeleteURL` of `internal/service/url_service.go`: it forwards to
`urlRepo.Delete` and touches neither the cache nor anything else. -/
def sysDelete (db : Store) (id : String) : Except SvcErr Unit × Store :=
  match pgDelete db id with
  | .ok db' => (.ok (), db')
  | .error e => (.error e, db)

/-- Number of byte values in [0, 256) that `generateShortCode` maps to the
charset character of index `i` (the source maps byte `b` to
`charset[b % len(charset)]`). -/
def bytePreimageCount (i : Nat) : Nat :=
  ((List.range 256).filter (fun b => b % charset.data.length == i)).length

/-- Conjunction of the three target-URL checks of `domain.Validate` (non-blank
original URL, parse success, http/https scheme, non-empty host), as a single
predicate. -/
def targetOK (s : String) : Bool :=
  !(isBlank s) &&
    (match parseURL s with
     | none => false
     | some p => (p.scheme == "http" || p.scheme == "https") && !(p.host == ""))

/-- Characters that can occur in the output of Go's `time.Time.String()`
(`"2006-01-02 15:04:05.999999999 -0700 MST m=+0.000000001"`): letters, digits,
space, `-`, `:`, `.`, `+` and `=`. -/
def goTimeChar (c : Char) : Bool :=
  isAlphanumeric c || c == ' ' || c == '-' || c == ':' || c == '.' || c == '+' || c == '='

/-! Helper lemmas shared by the claim theorems. -/

/-- Characters of the alias charset occupy one UTF-8 byte. -/
theorem charUtf8Size_allowed (c : Char)
    (h : (isAlphanumeric c || c == '-' || c == '_') = true) : charUtf8Size c = 1 := by
  have hle : c.toNat ≤ 0x7F := by
    simp only [isAlphanumeric, Bool.or_eq_true, Bool.and_eq_true, decide_eq_true_eq,
      beq_iff_eq] at h
    rcases h with (((⟨_, h2⟩ | ⟨_, h2⟩) | ⟨_, h2⟩) | h) | h
    · have : c.toNat ≤ 122 := h2
      omega
    · have : c.toNat ≤ 90 := h2
      omega
    · have : c.toNat ≤ 57 := h2
      omega
    · subst h; decide
    · subst h; decide
  unfold charUtf8Size
  rw [if_pos hle]

/-- On alias-charset strings, the Go byte length equals the character count. -/
theorem goLenList_allowed (l : List Char)
    (h : l.all (fun c => isAlphanumeric c || c == '-' || c == '_') = true) :
    goLenList l = l.length := by
  induction l with
  | nil => rfl
  | cons c cs ih =>
    rw [List.all_cons, Bool.and_eq_true] at h
    rw [goLenList, charUtf8Size_allowed c h.1, ih h.2, List.length_cons]
    omega

/-- The claim C9 (confirmed): `ValidateCustomAlias` accepts a string exactly
when its length lies in [3, 20] and every character is alphanumeric, `-` or
`_`; in particular it accepts all length-3 and length-20 strings over that
charset and rejects any string of length 2 or 21 or containing a character
outside it. -/
theorem c9_validateCustomAlias_iff (a : String) :
    validateCustomAlias a = none ↔
      3 ≤ a.length ∧ a.length ≤ 20 ∧
        ∀ c ∈ a.data, isAlphanumeric c = true ∨ c = '-' ∨ c = '_' := by
  by_cases hall : a.data.all (fun c => isAlphanumeric c || c == '-' || c == '_') = true
  · have hlen : goStrLen a = a.length := goLenList_allowed a.data hall
    have hmem : ∀ c ∈ a.data, isAlphanumeric c = true ∨ c = '-' ∨ c = '_' := by
      intro c hc
      have := List.all_eq_true.mp hall c hc
      simpa [Bool.or_eq_true, beq_iff_eq, or_assoc] using this
    unfold validateCustomAlias
    rw [hlen]
    by_cases hr : a.length < 3 ∨ a.length > 20
    · rw [if_pos (by simpa [decide_eq_true_eq] using hr)]
      simp only [reduceCtorEq, false_iff]
      rintro ⟨h3, h20, -⟩
      omega
    · rw [if_neg (by simpa [decide_eq_true_eq] using hr), hall, if_pos rfl]
      exact iff_of_true rfl ⟨by omega, by omega, hmem⟩
  · have hall' : (a.data.all fun c => isAlphanumeric c || c == '-' || c == '_') = false :=
      Bool.eq_false_iff.mpr hall
    constructor
    · intro h
      unfold validateCustomAlias at h
      rw [hall'] at h
      split at h
      · exact absurd h (by simp)
      · simp at h
    · rintro ⟨-, -, hmem⟩
      exact absurd (List.all_eq_true.mpr (fun c hc => by
        rcases hmem c hc with h | h | h
        · simp [h]
        · simp [h]
        · simp [h])) hall

/-- Accessibility as `CanBeAccessed` reports it: no error exactly when the
record is active and not expired. -/
theorem canBeAccessed_none_iff (u : URL) (now : Int) :
    u.canBeAccessed now = none ↔ u.isActive = true ∧ u.isExpired now = false := by
  cases hA : u.isActive <;> cases hE : u.isExpired now <;>
    simp [URL.canBeAccessed, hA, hE]

/-- The access check passes on an active, unexpired record. -/
theorem accessCheck_ok (u : URL) (now : Int) (hA : u.isActive = true)
    (hE : u.isExpired now = false) : accessCheck u now = .ok u := by
  simp [accessCheck, URL.canBeAccessed, hA, hE]

/-- The access check surfaces `ErrURLNotActive` on an inactive record,
whatever its expiry. -/
theorem accessCheck_inactive (u : URL) (now : Int) (hA : u.isActive = false) :
    accessCheck u now = .error (.access .urlNotActive) := by
  simp [accessCheck, URL.canBeAccessed, hA]

/-- The access check surfaces `ErrURLExpired` on an active but expired
record. -/
theorem accessCheck_expired (u : URL) (now : Int) (hA : u.isActive = true)
    (hE : u.isExpired now = true) : accessCheck u now = .error (.access .urlExpired) := by
  simp [accessCheck, URL.canBeAccessed, hA, hE]

/-- Inversion: a record the access check lets through is the record checked,
active and unexpired. -/
theorem accessCheck_eq_ok (u v : URL) (now : Int) (h : accessCheck u now = .ok v) :
    v = u ∧ u.isActive = true ∧ u.isExpired now = false := by
  unfold accessCheck at h
  cases hc : u.canBeAccessed now with
  | some e => rw [hc] at h; exact absurd h (by simp)
  | none =>
    rw [hc] at h
    have := (canBeAccessed_none_iff u now).mp hc
    cases h
    exact ⟨rfl, this.1, this.2⟩

/-- The claim C5 (confirmed): every record `GetURL` returns — from the cache
or from the durable store — is active and unexpired at the moment of the
read; an inactive record yields the not-active error regardless of its
expiry, and an active expired record yields the expired error, including on a
cache hit. -/
theorem c5_access_policy (cg : String → CacheGetRes) (dbc dba : String → Option URL)
    (now : Int) (code : String) :
    (∀ u, getURL cg dbc dba now code = .ok u → u.isActive = true ∧ u.isExpired now = false)
    ∧ (∀ u, cg code = .hit u → u.isActive = false →
        getURL cg dbc dba now code = .error (.access .urlNotActive))
    ∧ (∀ u, cg code = .hit u → u.isActive = true → u.isExpired now = true →
        getURL cg dbc dba now code = .error (.access .urlExpired))
    ∧ (∀ u, cg code = .miss → dbc code = some u → u.isActive = false →
        getURL cg dbc dba now code = .error (.access .urlNotActive))
    ∧ (∀ u, cg code = .miss → dbc code = some u → u.isActive = true →
        u.isExpired now = true →
        getURL cg dbc dba now code = .error (.access .urlExpired)) := by
  refine ⟨?_, ?_, ?_, ?_, ?_⟩
  · intro u h
    unfold getURL at h
    cases hc : cg code with
    | hit u' =>
      rw [hc] at h
      obtain ⟨rfl, hA, hE⟩ := accessCheck_eq_ok u' u now h
      exact ⟨hA, hE⟩
    | miss =>
      rw [hc] at h
      cases hd : dbc code with
      | some u' =>
        rw [hd] at h
        obtain ⟨rfl, hA, hE⟩ := accessCheck_eq_ok u' u now h
        exact ⟨hA, hE⟩
      | none =>
        rw [hd] at h
        cases ha : dba code with
        | some u' =>
          rw [ha] at h
          obtain ⟨rfl, hA, hE⟩ := accessCheck_eq_ok u' u now h
          exact ⟨hA, hE⟩
        | none => rw [ha] at h; exact absurd h (by simp)
    | errc =>
      rw [hc] at h
      cases hd : dbc code with
      | some u' =>
        rw [hd] at h
        obtain ⟨rfl, hA, hE⟩ := accessCheck_eq_ok u' u now h
        exact ⟨hA, hE⟩
      | none =>
        rw [hd] at h
        cases ha : dba code with
        | some u' =>
          rw [ha] at h
          obtain ⟨rfl, hA, hE⟩ := accessCheck_eq_ok u' u now h
          exact ⟨hA, hE⟩
        | none => rw [ha] at h; exact absurd h (by simp)
  · intro u hc hA
    unfold getURL
    rw [hc]
    exact accessCheck_inactive u now hA
  · intro u hc hA hE
    unfold getURL
    rw [hc]
    exact accessCheck_expired u now hA hE
  · intro u hc hd hA
    unfold getURL
    rw [hc, hd]
    exact accessCheck_inactive u now hA
  · intro u hc hd hA hE
    unfold getURL
    rw [hc, hd]
    exact accessCheck_expired u now hA hE

/-- Witness for C5: a cache hit on a concrete soft-deleted record yields the
not-active error even though the record is unexpired. -/
theorem c5_witness :
    getURL (fun _ => .hit ⟨"1", "abc123", "https://example.com", none, 0, none, 0, "u1", false⟩)
      (fun _ => none) (fun _ => none) 5 "abc123" = .error (.access .urlNotActive) :=
  (c5_access_policy _ _ _ 5 "abc123").2.1 _ rfl rfl

/-- The claim C6 (confirmed): an erroring cache is observationally identical
to an absent one — `GetURL` answers the same whether every cache read errors
or misses, and neither `CreateShortURL`'s nor `GetURL`'s returned value
depends on whether the best-effort cache population succeeded. -/
theorem c6_cache_transparency :
    (∀ (dbByCode dbByAlias : String → Option URL) (now : Int) (code : String),
      getURL (fun _ => .errc) dbByCode dbByAlias now code
        = getURL (fun _ => .miss) dbByCode dbByAlias now code)
    ∧ (∀ db cache cands newId now target al createdBy ttl,
      (sysCreate db cache cands newId false now target al createdBy ttl).1
        = (sysCreate db cache cands newId true now target al createdBy ttl).1)
    ∧ (∀ db cache now code,
      (sysGet db cache false now code).1 = (sysGet db cache true now code).1) := by
  refine ⟨fun _ _ _ _ => rfl, ?_, ?_⟩
  · intro db cache cands newId now target al createdBy ttl
    simp only [sysCreate]
    split
    · rfl
    · split <;> rfl
  · intro db cache now code
    simp only [sysGet]
    split
    · rfl
    · split
      · rfl
      · split
        · rfl
        · rfl

/-- The claim C8 (confirmed): `RecordClick` succeeds exactly when the lookup
and the atomic increment succeed; the outcome of the best-effort analytics
append never changes the returned value. -/
theorem c8_recordClick (g : Option URL) (inc clickCreate : Bool) :
    (recordClick g inc clickCreate = .ok () ↔ (∃ u, g = some u) ∧ inc = true)
    ∧ ∀ cc, recordClick g inc clickCreate = recordClick g inc cc := by
  cases g <;> cases inc <;> simp [recordClick]

/-- Counterexample to C7: `b % 62` does not assign the same number of the 256
byte values to every charset character — index 0 receives 5 byte values while
index 8 receives 4. -/
theorem c7_counterexample :
    bytePreimageCount 0 = 5 ∧ bytePreimageCount 8 = 4 ∧
      bytePreimageCount 0 ≠ bytePreimageCount 8 := by decide

/-- The claim C7 as amended: under the byte-to-character map
`charset[b % 62]`, each of the first 8 charset characters receives 5 of the
256 byte values and each of the remaining 54 receives 4 (a 5/4 modulo bias,
not exact uniformity, since 256 = 4·62 + 8). -/
theorem c7_amended : ∀ i < charset.data.length,
    bytePreimageCount i = if i < 8 then 5 else 4 := by decide

/-- Witness for C7's amended theorem at index 0. -/
theorem c7_witness :
    0 < charset.data.length ∧ bytePreimageCount 0 = if 0 < 8 then 5 else 4 :=
  ⟨by decide, c7_amended 0 (by decide)⟩

/-- A code accepted by the retry loop was reported absent by the store. -/
theorem genAttempts_ok (db : Store) (cands : Nat → String) :
    ∀ n i code, genAttempts db cands n i = .ok code → pgExistsShortCode db code = false := by
  intro n
  induction n with
  | zero => intro i code h; simp [genAttempts] at h
  | succ n ih =>
    intro i code h
    unfold genAttempts at h
    by_cases hex : pgExistsShortCode db (cands i) = true
    · rw [if_pos hex] at h
      exact ih _ _ h
    · rw [if_neg hex] at h
      cases h
      exact Bool.eq_false_iff.mpr hex

/-- When every candidate collides, the retry loop exhausts its budget. -/
theorem genAttempts_exhausted (db : Store) (cands : Nat → String) :
    ∀ n i, (∀ j, j < n → pgExistsShortCode db (cands (i + j)) = true) →
      genAttempts db cands n i = .error .codeSpaceExhausted := by
  intro n
  induction n with
  | zero => intro i _; rfl
  | succ n ih =>
    intro i h
    unfold genAttempts
    rw [if_pos (by simpa using h 0 (by omega))]
    refine ih (i + 1) (fun j hj => ?_)
    have := h (j + 1) (by omega)
    rw [show i + 1 + j = i + (j + 1) by omega]
    exact this

/-- Inversion of a successful aliasless `CreateShortURL`: the returned record
is active, alias-free, carries the store-assigned id and the requested target,
has an expiry exactly when `ttl > 0`, its code was free in the store, and the
store and cache were extended with it. -/
theorem sysCreate_ok_fields (db : Store) (cache : CacheState) (cands : Nat → String)
    (newId : String) (cSet : Bool) (now : Int) (target createdBy : String) (ttl : Int)
    (u : URL) (db' : Store) (c' : CacheState)
    (h : sysCreate db cache cands newId cSet now target "" createdBy ttl = (.ok u, db', c')) :
    u.isActive = true ∧ u.customAlias = none ∧ u.id = newId ∧
    u.originalURL = target ∧
    u.expiresAt = (if ttl > 0 then some (now + ttl) else none) ∧
    pgExistsShortCode db u.shortCode = false ∧
    db' = db ++ [u] ∧
    c' = (if cSet then cacheSet cache u.shortCode u else cache) := by
  unfold sysCreate at h
  cases hg : generateUniqueShortCode db cands with
  | error e => simp [hg] at h
  | ok code =>
    have hex : pgExistsShortCode db code = false :=
      genAttempts_ok db cands 10 0 code hg
    by_cases httl : ttl > 0
    · simp only [hg, ne_eq, not_true_eq_false, if_false, httl, if_true,
        reduceIte] at h
      cases hv : ((NewURL target code createdBy now).withExpiration now ttl).validate with
      | some e => rw [hv] at h; simp at h
      | none =>
        rw [hv] at h
        obtain ⟨hu, hdb, hc⟩ := Prod.mk.injEq .. ▸ h
        replace hu : ({ (NewURL target code createdBy now).withExpiration now ttl
            with id := newId } : URL) = u := by
          simpa using hu
        subst hu
        refine ⟨rfl, rfl, rfl, rfl, ?_, ?_, ?_, ?_⟩
        · simp [NewURL, URL.withExpiration, if_pos httl]
        · simpa [NewURL, URL.withExpiration] using hex
        · simpa [pgCreate, NewURL, URL.withExpiration] using hdb.symm
        · simpa [NewURL, URL.withExpiration] using hc.symm
    · simp only [hg, ne_eq, not_true_eq_false, if_false, httl, reduceIte] at h
      cases hv : (NewURL target code createdBy now).validate with
      | some e => rw [hv] at h; simp at h
      | none =>
        rw [hv] at h
        obtain ⟨hu, hdb, hc⟩ := Prod.mk.injEq .. ▸ h
        replace hu : ({ NewURL target code createdBy now with id := newId } : URL) = u := by
          simpa using hu
        subst hu
        refine ⟨rfl, rfl, rfl, rfl, ?_, ?_, ?_, ?_⟩
        · simp [NewURL, if_neg httl]
        · simpa [NewURL] using hex
        · simpa [pgCreate, NewURL] using hdb.symm
        · simpa [NewURL] using hc.symm

/-- The cache returns a hit for a key just written. -/
theorem cacheGetRes_cacheSet (c : CacheState) (k : String) (v : URL) :
    cacheGetRes (cacheSet c k v) k = .hit v := by
  simp [cacheGetRes, cacheSet]

/-- The empty cache always misses. -/
theorem cacheGetRes_nil (k : String) : cacheGetRes [] k = .miss := rfl

/-- A record without expiry is never expired. -/
theorem isExpired_none (u : URL) (t : Int) (h : u.expiresAt = none) :
    u.isExpired t = false := by
  simp [URL.isExpired, h]

/-- The claim C3 (confirmed): when the store reports a collision for each of
the 10 generated candidates, an aliasless `CreateShortURL` fails with the
code-space-exhausted error, and neither the store nor the cache is touched —
in particular no record is persisted. -/
theorem c3_collision_bound (db : Store) (cache : CacheState) (cands : Nat → String)
    (newId : String) (cSet : Bool) (now : Int) (target createdBy : String) (ttl : Int)
    (h : ∀ i, i < 10 → pgExistsShortCode db (cands i) = true) :
    sysCreate db cache cands newId cSet now target "" createdBy ttl
      = (.error .codeSpaceExhausted, db, cache) := by
  have hg : generateUniqueShortCode db cands = .error .codeSpaceExhausted :=
    genAttempts_exhausted db cands 10 0 (fun j hj => by simpa using h j hj)
  unfold sysCreate
  simp [hg]

/-- Witness for C3: a store holding the code `"aaaaaa"` and a degenerate
generator that always proposes `"aaaaaa"`. -/
theorem c3_witness :
    sysCreate [⟨"x", "aaaaaa", "https://a.com", none, 0, none, 0, "u", false⟩] []
        (fun _ => "aaaaaa") "id1" true 0 "https://example.com" "" "u1" 0
      = (.error .codeSpaceExhausted,
         [⟨"x", "aaaaaa", "https://a.com", none, 0, none, 0, "u", false⟩], []) :=
  c3_collision_bound _ _ _ _ _ _ _ _ _ (by decide)

/-- Counterexample to C2: created from an empty system with `ttl = -1`, the
record carries no expiry at all, and the immediately following `GetURL`
succeeds instead of failing with the expired error. -/
theorem c2_counterexample :
    (sysCreate [] [] (fun _ => "abc123") "id1" true 0 "https://example.com" "" "u1" (-1)).1
      = .ok ⟨"id1", "abc123", "https://example.com", none, 0, none, 0, "u1", true⟩
    ∧ (sysGet
        (sysCreate [] [] (fun _ => "abc123")
          "id1" true 0 "https://example.com" "" "u1" (-1)).2.1
        (sysCreate [] [] (fun _ => "abc123")
          "id1" true 0 "https://example.com" "" "u1" (-1)).2.2
        true 0 "abc123").1
      = .ok ⟨"id1", "abc123", "https://example.com", none, 0, none, 0, "u1", true⟩
    ∧ (sysGet
        (sysCreate [] [] (fun _ => "abc123")
          "id1" true 0 "https://example.com" "" "u1" (-1)).2.1
        (sysCreate [] [] (fun _ => "abc123")
          "id1" true 0 "https://example.com" "" "u1" (-1)).2.2
        true 0 "abc123").1
      ≠ .error (.access .urlExpired) := by
  refine ⟨by decide, by decide, by decide⟩

/-- The claim C2 as amended: `CreateShortURL` sets an expiry only for
`ttl > 0`; a record created with a non-positive ttl (such as -1 second) has no
expiry, and a following `GetURL` on its code — at any later time — returns the
record successfully rather than failing with the expired error. -/
theorem c2_amended (db : Store) (cache : CacheState) (cands : Nat → String)
    (newId : String) (now : Int) (target createdBy : String) (ttl : Int)
    (u : URL) (db' : Store) (c' : CacheState)
    (httl : ttl ≤ 0)
    (h : sysCreate db cache cands newId true now target "" createdBy ttl = (.ok u, db', c')) :
    u.expiresAt = none ∧ ∀ t, (sysGet db' c' true t u.shortCode).1 = .ok u := by
  obtain ⟨hA, _, _, _, hExp, _, _, hc⟩ :=
    sysCreate_ok_fields db cache cands newId true now target createdBy ttl u db' c' h
  have hexp : u.expiresAt = none := by rw [hExp, if_neg (by omega)]
  refine ⟨hexp, fun t => ?_⟩
  have hc' : c' = cacheSet cache u.shortCode u := by simpa using hc
  subst hc'
  unfold sysGet
  rw [cacheGetRes_cacheSet]
  simp [accessCheck_ok u t hA (isExpired_none u t hexp)]

/-- Witness for C2's amended theorem on the concrete `ttl = -1` run. -/
theorem c2_witness :
    (⟨"id1", "abc123", "https://example.com", none, 0, none, 0, "u1", true⟩ : URL).expiresAt
        = none
    ∧ ∀ t, (sysGet
        [⟨"id1", "abc123", "https://example.com", none, 0, none, 0, "u1", true⟩]
        [("abc123", ⟨"id1", "abc123", "https://example.com", none, 0, none, 0, "u1", true⟩)]
        true t "abc123").1
      = .ok ⟨"id1", "abc123", "https://example.com", none, 0, none, 0, "u1", true⟩ :=
  c2_amended [] [] (fun _ => "abc123") "id1" 0 "https://example.com" "u1" (-1)
    ⟨"id1", "abc123", "https://example.com", none, 0, none, 0, "u1", true⟩
    [⟨"id1", "abc123", "https://example.com", none, 0, none, 0, "u1", true⟩]
    [("abc123", ⟨"id1", "abc123", "https://example.com", none, 0, none, 0, "u1", true⟩)]
    (by omega) (by decide)

/-- Counterexample to C1: the concrete create → get → delete → get sequence
from an empty system.  The delete leaves the cache entry in place and the
repository lookups exclude inactive rows, so the second `GetURL` returns the
stale pre-delete record from the cache — and would report not-found, never
the inactive error, were the cache entry gone. -/
theorem c1_counterexample :
    sysCreate [] [] (fun _ => "abc123") "id1" true 0 "https://example.com" "" "u1" 0
      = (.ok ⟨"id1", "abc123", "https://example.com", none, 0, none, 0, "u1", true⟩,
         [⟨"id1", "abc123", "https://example.com", none, 0, none, 0, "u1", true⟩],
         [("abc123", ⟨"id1", "abc123", "https://example.com", none, 0, none, 0, "u1", true⟩)])
    ∧ (sysGet [⟨"id1", "abc123", "https://example.com", none, 0, none, 0, "u1", true⟩]
        [("abc123", ⟨"id1", "abc123", "https://example.com", none, 0, none, 0, "u1", true⟩)]
        true 1 "abc123").1
      = .ok ⟨"id1", "abc123", "https://example.com", none, 0, none, 0, "u1", true⟩
    ∧ sysDelete [⟨"id1", "abc123", "https://example.com", none, 0, none, 0, "u1", true⟩] "id1"
      = (.ok (), [⟨"id1", "abc123", "https://example.com", none, 0, none, 0, "u1", false⟩])
    ∧ (sysGet [⟨"id1", "abc123", "https://example.com", none, 0, none, 0, "u1", false⟩]
        [("abc123", ⟨"id1", "abc123", "https://example.com", none, 0, none, 0, "u1", true⟩)]
        true 2 "abc123").1
      = .ok ⟨"id1", "abc123", "https://example.com", none, 0, none, 0, "u1", true⟩
    ∧ (sysGet [⟨"id1", "abc123", "https://example.com", none, 0, none, 0, "u1", false⟩]
        [("abc123", ⟨"id1", "abc123", "https://example.com", none, 0, none, 0, "u1", true⟩)]
        true 2 "abc123").1
      ≠ .error (.access .urlNotActive)
    ∧ (sysGet [⟨"id1", "abc123", "https://example.com", none, 0, none, 0, "u1", false⟩]
        [] true 2 "abc123").1
      = .error .notFound := by
  refine ⟨by decide, by decide, by decide, by decide, by decide, by decide⟩

/-- The claim C1 as amended: after create → successful get → delete (from an
empty system), the second `GetURL` on the code does not fail with the inactive
error — while the cache entry persists it returns the stale pre-delete record
successfully, and with the cache entry gone it fails with not-found, because
the repository lookups filter out inactive rows. -/
theorem c1_amended (cands : Nat → String) (newId : String) (now t2 t3 : Int)
    (target createdBy : String) (ttl : Int) (u : URL) (db1 : Store) (c1 : CacheState)
    (h : sysCreate [] [] cands newId true now target "" createdBy ttl = (.ok u, db1, c1))
    (h2 : u.isExpired t2 = false) (h3 : u.isExpired t3 = false) :
    sysGet db1 c1 true t2 u.shortCode = (.ok u, c1)
    ∧ sysDelete db1 u.id = (.ok (), [{ u with isActive := false }])
    ∧ (sysGet [{ u with isActive := false }] c1 true t3 u.shortCode).1 = .ok u
    ∧ (sysGet [{ u with isActive := false }] [] true t3 u.shortCode).1
        = .error .notFound := by
  obtain ⟨hA, hCA, _, _, _, _, hdb, hc⟩ :=
    sysCreate_ok_fields [] [] cands newId true now target createdBy ttl u db1 c1 h
  have hdb1 : db1 = [u] := by simpa using hdb
  have hc1 : c1 = [(u.shortCode, u)] := by simpa [cacheSet] using hc
  subst hdb1
  subst hc1
  have hhit : cacheGetRes [(u.shortCode, u)] u.shortCode = .hit u := by
    simp [cacheGetRes]
  refine ⟨?_, ?_, ?_, ?_⟩
  · unfold sysGet
    rw [hhit]
    simp [accessCheck_ok u t2 hA h2]
  · unfold sysDelete pgDelete
    simp
  · unfold sysGet
    rw [hhit]
    simp [accessCheck_ok u t3 hA h3]
  · unfold sysGet
    rw [cacheGetRes_nil]
    have hfind : pgGetByShortCode [{ u with isActive := false }] u.shortCode = none := by
      simp [pgGetByShortCode]
    have hfinda : pgGetByCustomAlias [{ u with isActive := false }] u.shortCode = none := by
      simp [pgGetByCustomAlias, hCA]
    rw [hfind, hfinda]

/-- Witness for C1's amended theorem on the concrete sequence. -/
theorem c1_witness :
    sysGet [⟨"id1", "abc123", "https://example.com", none, 0, none, 0, "u1", true⟩]
        [("abc123", ⟨"id1", "abc123", "https://example.com", none, 0, none, 0, "u1", true⟩)]
        true 1 "abc123"
      = (.ok ⟨"id1", "abc123", "https://example.com", none, 0, none, 0, "u1", true⟩,
         [("abc123", ⟨"id1", "abc123", "https://example.com", none, 0, none, 0, "u1", true⟩)])
    ∧ sysDelete [⟨"id1", "abc123", "https://example.com", none, 0, none, 0, "u1", true⟩] "id1"
      = (.ok (), [⟨"id1", "abc123", "https://example.com", none, 0, none, 0, "u1", false⟩])
    ∧ (sysGet [⟨"id1", "abc123", "https://example.com", none, 0, none, 0, "u1", false⟩]
        [("abc123", ⟨"id1", "abc123", "https://example.com", none, 0, none, 0, "u1", true⟩)]
        true 2 "abc123").1
      = .ok ⟨"id1", "abc123", "https://example.com", none, 0, none, 0, "u1", true⟩
    ∧ (sysGet [⟨"id1", "abc123", "https://example.com", none, 0, none, 0, "u1", false⟩]
        [] true 2 "abc123").1
      = .error .notFound :=
  c1_amended (fun _ => "abc123") "id1" 0 1 2 "https://example.com" "u1" 0
    ⟨"id1", "abc123", "https://example.com", none, 0, none, 0, "u1", true⟩
    [⟨"id1", "abc123", "https://example.com", none, 0, none, 0, "u1", true⟩]
    [("abc123", ⟨"id1", "abc123", "https://example.com", none, 0, none, 0, "u1", true⟩)]
    (by decide) (by decide) (by decide)

/-- On a target passing the URL checks, `Validate` reduces to the short-code
length check followed by the custom-alias check. -/
theorem validate_target_pass (u : URL) (h : targetOK u.originalURL = true) :
    u.validate =
      (if goStrLen u.shortCode < 3 then some .shortCodeTooShort
       else match u.customAlias with
         | some a => if a ≠ "" && !isValidAlias a then some .customAliasInvalid else none
         | none => none) := by
  unfold targetOK at h
  rw [Bool.and_eq_true] at h
  obtain ⟨hb, hrest⟩ := h
  have hb' : isBlank u.originalURL = false := by
    cases hbv : isBlank u.originalURL
    · rfl
    · rw [hbv] at hb; exact absurd hb (by decide)
  cases hp : parseURL u.originalURL with
  | none => rw [hp] at hrest; exact absurd hrest (by decide)
  | some p =>
    rw [hp] at hrest
    rw [Bool.and_eq_true] at hrest
    obtain ⟨hs, hh⟩ := hrest
    have hs' : p.scheme = "http" ∨ p.scheme = "https" := by simpa using hs
    have hh' : ¬(p.host = "") := by simpa using hh
    rcases hs' with h | h <;>
      simp [URL.validate, hb', hp, h, hh']

/-- The claim C4 as amended: for a non-empty, syntactically invalid custom
alias and a valid target, `CreateShortURL` fails — but the outcome does
depend on the store: the existence check runs first, so a taken alias yields
the alias-taken error; only an untaken one reaches validation, which reports
short-code-too-short for aliases under 3 bytes and invalid-alias otherwise.
Nothing is persisted in either case. -/
theorem c4_amended (db : Store) (cache : CacheState) (cands : Nat → String)
    (newId : String) (cSet : Bool) (now : Int) (target createdBy : String) (ttl : Int)
    (al : String) (hal : al ≠ "") (hinv : isValidAlias al = false)
    (htgt : targetOK target = true) :
    sysCreate db cache cands newId cSet now target al createdBy ttl
      = (.error (if pgExistsCustomAlias db al then .aliasTaken
          else .validation (if goStrLen al < 3 then .shortCodeTooShort
            else .customAliasInvalid)),
         db, cache) := by
  by_cases hex : pgExistsCustomAlias db al = true
  · unfold sysCreate
    simp [hal, hex]
  · have hex' : pgExistsCustomAlias db al = false := Bool.eq_false_iff.mpr hex
    have hval : ∀ u2 : URL, u2.originalURL = target → u2.shortCode = al →
        u2.customAlias = some al →
        u2.validate = some (if goStrLen al < 3 then DomainErr.shortCodeTooShort
          else DomainErr.customAliasInvalid) := by
      intro u2 h1 h2 h3
      rw [validate_target_pass u2 (by rw [h1]; exact htgt), h2, h3]
      by_cases hlen : goStrLen al < 3
      · rw [if_pos hlen, if_pos hlen]
      · rw [if_neg hlen, if_neg hlen]
        simp [hal, hinv]
    have h2 := hval
      (if ttl > 0 then ((NewURL target al createdBy now).withCustomAlias al).withExpiration now ttl
       else (NewURL target al createdBy now).withCustomAlias al)
      (by by_cases h : ttl > 0 <;>
        simp [h, NewURL, URL.withCustomAlias, URL.withExpiration])
      (by by_cases h : ttl > 0 <;>
        simp [h, NewURL, URL.withCustomAlias, URL.withExpiration])
      (by by_cases h : ttl > 0 <;>
        simp [h, NewURL, URL.withCustomAlias, URL.withExpiration])
    unfold sysCreate
    simp [hal, hex', h2]

/-- Counterexample to C4: with the syntactically invalid alias `"a@b"`, the
outcome of `CreateShortURL` does depend on whether the alias is taken — a
store holding it yields the alias-taken error, an empty store yields the
invalid-alias validation error. -/
theorem c4_counterexample :
    (sysCreate [⟨"x", "zzz", "https://a.com", some "a@b", 0, none, 0, "u", true⟩] []
        (fun _ => "cccccc") "id1" true 0 "https://example.com" "a@b" "u1" 0).1
      = .error .aliasTaken
    ∧ (sysCreate [] []
        (fun _ => "cccccc") "id1" true 0 "https://example.com" "a@b" "u1" 0).1
      = .error (.validation .customAliasInvalid)
    ∧ (SvcErr.aliasTaken ≠ SvcErr.validation .customAliasInvalid) := by
  refine ⟨by decide, by decide, by decide⟩

/-- Witness for C4's amended theorem: the taken, syntactically invalid alias
`"a@b"` yields the alias-taken error. -/
theorem c4_witness :
    sysCreate [⟨"x", "zzz", "https://a.com", some "a@b", 0, none, 0, "u", true⟩] []
        (fun _ => "cccccc") "id1" true 0 "https://example.com" "a@b" "u1" 0
      = (.error (if pgExistsCustomAlias
            [⟨"x", "zzz", "https://a.com", some "a@b", 0, none, 0, "u", true⟩] "a@b"
          then .aliasTaken
          else .validation (if goStrLen "a@b" < 3 then .shortCodeTooShort
            else .customAliasInvalid)),
         [⟨"x", "zzz", "https://a.com", some "a@b", 0, none, 0, "u", true⟩], []) :=
  c4_amended _ _ _ _ _ _ _ _ _ "a@b" (by decide) (by decide) (by decide)

/-- Characters of Go time strings are ASCII below 123 and avoid the code
points 62 (`>`) and 63 (`?`). -/
theorem goTimeChar_bounds (c : Char) (h : goTimeChar c = true) :
    c.toNat ≤ 122 ∧ c.toNat ≠ 62 ∧ c.toNat ≠ 63 := by
  simp only [goTimeChar, isAlphanumeric, Bool.or_eq_true, Bool.and_eq_true,
    decide_eq_true_eq, beq_iff_eq] at h
  rcases h with (((((((⟨h1, h2⟩ | ⟨h1, h2⟩) | ⟨h1, h2⟩) | h) | h) | h) | h) | h) | h
  · have l : 97 ≤ c.toNat := h1
    have r : c.toNat ≤ 122 := h2
    exact ⟨by omega, by omega, by omega⟩
  · have l : 65 ≤ c.toNat := h1
    have r : c.toNat ≤ 90 := h2
    exact ⟨by omega, by omega, by omega⟩
  · have l : 48 ≤ c.toNat := h1
    have r : c.toNat ≤ 57 := h2
    exact ⟨by omega, by omega, by omega⟩
  · subst h; exact ⟨by decide, by decide, by decide⟩
  · subst h; exact ⟨by decide, by decide, by decide⟩
  · subst h; exact ⟨by decide, by decide, by decide⟩
  · subst h; exact ⟨by decide, by decide, by decide⟩
  · subst h; exact ⟨by decide, by decide, by decide⟩
  · subst h; exact ⟨by decide, by decide, by decide⟩

/-- The first 62 characters of the base64url alphabet are exactly the
alphanumerics, hence members of `generateShortCode`'s charset. -/
theorem b64_index_alnum : ∀ i, i < 62 → (b64urlAlphabet.data.getD i 'A') ∈ charset.data := by
  decide

/-- Any modulo-reduced index selects a charset member. -/
theorem charset_getD_mem (k : Nat) :
    charset.data.getD (k % charset.data.length) 'a' ∈ charset.data := by
  have hlt : k % charset.data.length < charset.data.length := Nat.mod_lt _ (by decide)
  rw [List.getD_eq_getElem _ _ hlt]
  exact List.getElem_mem hlt

/-- The fallback branch of `generateShortCode` at the configured length 6:
on any (long enough) Go time string it produces 6 characters, all of them
alphanumeric — the base64url code points `-` and `_` (indices 62 and 63) and
the padding `=` are unreachable in the first six positions for this input
alphabet. -/
theorem fallback_in_charset (ts : String) (hts : ∀ c ∈ ts.data, goTimeChar c = true)
    (hlen : 5 ≤ ts.length) :
    (generateShortCode none ts 6).length = 6 ∧
    ∀ c ∈ (generateShortCode none ts 6).data, c ∈ charset.data := by
  have hlen' : 5 ≤ ts.data.length := hlen
  rcases hd : ts.data with _ | ⟨c0, _ | ⟨c1, _ | ⟨c2, _ | ⟨c3, _ | ⟨c4, rest⟩⟩⟩⟩⟩ <;>
    rw [hd] at hlen' <;> simp at hlen' <;> try omega
  obtain ⟨a0, b0, d0⟩ := goTimeChar_bounds c0 (hts c0 (by rw [hd]; simp))
  obtain ⟨a1, b1, d1⟩ := goTimeChar_bounds c1 (hts c1 (by rw [hd]; simp))
  obtain ⟨a2, b2, d2⟩ := goTimeChar_bounds c2 (hts c2 (by rw [hd]; simp))
  obtain ⟨a3, b3, d3⟩ := goTimeChar_bounds c3 (hts c3 (by rw [hd]; simp))
  obtain ⟨a4, b4, d4⟩ := goTimeChar_bounds c4 (hts c4 (by rw [hd]; simp))
  rcases rest with _ | ⟨c5, rest'⟩
  · constructor
    · simp [generateShortCode, base64urlEncode, hd, base64Indices, String.length]
    · intro c hc
      simp only [generateShortCode, base64urlEncode, hd, List.map_cons, List.map_nil,
        base64Indices, List.take, b64OutChar, List.mem_cons, List.not_mem_nil,
        or_false] at hc
      rcases hc with h | h | h | h | h | h <;> subst h <;>
        exact b64_index_alnum _ (by omega)
  · constructor
    · simp [generateShortCode, base64urlEncode, hd, base64Indices, String.length]
    · intro c hc
      simp only [generateShortCode, base64urlEncode, hd, List.map_cons,
        base64Indices, List.take, b64OutChar, List.mem_cons, List.not_mem_nil,
        or_false] at hc
      rcases hc with h | h | h | h | h | h <;> subst h <;>
        exact b64_index_alnum _ (by omega)

/-- Counterexample to C10's fallback clause: at a concrete Go timestamp, the
crypto-failure fallback of `generateShortCode` produces `"MjAyNi"`, whose
every character lies inside the 62-character charset — no `-`, `_` or `=`
appears. -/
theorem c10_counterexample :
    generateShortCode none "2026-10-11 10:30:00.123456789 +0000 UTC m=+0.000000001" 6
      = "MjAyNi"
    ∧ ∀ c ∈ ("MjAyNi" : String).data, c ∈ charset.data := by
  refine ⟨by decide, by decide⟩

/-- The claim C10 as amended: `generateShortCode` is total and never reports
failure; at the configured length 6 both branches return exactly 6
characters, and — contrary to the claim — the fallback also stays inside the
62-character alphanumeric charset: for the character set of Go time strings,
the first six base64url digits never reach the `-`/`_` code points, and
padding only occurs at the end of the encoding. -/
theorem c10_amended (bytes : Nat → Nat) (ts : String)
    (hts : ∀ c ∈ ts.data, goTimeChar c = true) (hlen : 5 ≤ ts.length) :
    (generateShortCode (some bytes) ts 6).length = 6
    ∧ (∀ c ∈ (generateShortCode (some bytes) ts 6).data, c ∈ charset.data)
    ∧ (generateShortCode none ts 6).length = 6
    ∧ ∀ c ∈ (generateShortCode none ts 6).data, c ∈ charset.data := by
  refine ⟨?_, ?_, (fallback_in_charset ts hts hlen).1, (fallback_in_charset ts hts hlen).2⟩
  · show (List.map (fun i => charset.data.getD ((bytes i % 256) % charset.data.length) 'a')
      (List.range 6)).length = 6
    rw [List.length_map, List.length_range]
  · intro c hc
    have hc' : c ∈ List.map
        (fun i => charset.data.getD ((bytes i % 256) % charset.data.length) 'a')
        (List.range 6) := hc
    obtain ⟨i, _, rfl⟩ := List.mem_map.mp hc'
    exact charset_getD_mem _

/-- Witness for C10's amended theorem at a concrete byte oracle and
timestamp. -/
theorem c10_witness :
    (generateShortCode (some (fun i => i))
        "2026-10-11 10:30:00.123456789 +0000 UTC m=+0.000000001" 6).length = 6
    ∧ (∀ c ∈ (generateShortCode (some (fun i => i))
        "2026-10-11 10:30:00.123456789 +0000 UTC m=+0.000000001" 6).data,
        c ∈ charset.data)
    ∧ (generateShortCode none
        "2026-10-11 10:30:00.123456789 +0000 UTC m=+0.000000001" 6).length = 6
    ∧ ∀ c ∈ (generateShortCode none
        "2026-10-11 10:30:00.123456789 +0000 UTC m=+0.000000001" 6).data,
        c ∈ charset.data :=
  c10_amended (fun i => i) "2026-10-11 10:30:00.123456789 +0000 UTC m=+0.000000001"
    (by decide) (by decide)

end UrlShortener
